import Mathlib

/-!
Shallow embedding of the osapiens-backend workflow engine.

The embedding follows the TypeScript sources:
  * `src/workers/taskRunner.ts`   — `TaskStatus`, `TaskRunner.run`, `TaskRunner.getJobContext`
  * `src/workflows/WorkflowFactory.ts` — `WorkflowStatus`, `WorkflowFactory.*`
  * `src/jobs/JobFactory.ts`      — `JobFactory.get`
  * `src/jobs/JobContext.ts`      — `JobContext`
  * `src/models/{Workflow,Task,Result}.ts` — entity shapes, `Task.isCompleted`
  * `src/utils/workflowReportGenerator.ts` — `WorkflowReportGenerator`
  * `src/workers/taskWorker.ts`   — the scheduler's task-selection query
  * `src/routes/workflowRoutes.ts` — the GET /:id/status response

Modelling conventions:
  * Entity identifiers (uuid strings generated by the store) are modelled as `Nat`;
    they are opaque in the sources, only compared for equality / used as sort keys.
  * The persistence layer (typeorm repositories) is modelled as a `Store` of rows;
    `save` upserts a row keyed by its id, `findOne` is `List.find?`.
  * JavaScript values returned by jobs and serialized with the `JSON.stringify`
    builtin are modelled by the inductive `Json` together with `jsonStringify`;
    JavaScript truthiness is `Json.truthy`, and `x || y` on those values is `jsOr`.
  * `undefined`/`null` table fields are `Option`; a JS `async` function that can
    throw is a function into `Except String`, carrying the error's `message`.
-/

namespace Engine

/-- Task statuses, from the `TaskStatus` enum in `src/workers/taskRunner.ts`. -/
inductive TaskStatus
  | Queued
  | InProgress
  | Completed
  | Failed
  | Skipped
deriving DecidableEq

/-- Workflow statuses, from the `WorkflowStatus` enum in `src/workflows/WorkflowFactory.ts`. -/
inductive WorkflowStatus
  | Initial
  | InProgress
  | Completed
  | Failed
deriving DecidableEq

/-- The string value of a task status (the TS enum member values). -/
def TaskStatus.toStringVal : TaskStatus → String
  | .Queued => "queued"
  | .InProgress => "in_progress"
  | .Completed => "completed"
  | .Failed => "failed"
  | .Skipped => "skipped"

/-- The string value of a workflow status (the TS enum member values). -/
def WorkflowStatus.toStringVal : WorkflowStatus → String
  | .Initial => "initial"
  | .InProgress => "in_progress"
  | .Completed => "completed"
  | .Failed => "failed"

/-- JavaScript values handled by the engine (job return values, workflow inputs).
Numbers are modelled as integers; this suffices for every claim. -/
inductive Json
  | null
  | bool (b : Bool)
  | num (n : Int)
  | str (s : String)
  | arr (elems : List Json)
  | obj (fields : List (String × Json))

mutual

/-- Model of the `JSON.stringify` builtin on `Json` values. -/
def jsonStringify : Json → String
  | Json.null => "null"
  | Json.bool b => if b then "true" else "false"
  | Json.num n => toString n
  | Json.str s => "\"" ++ s ++ "\""
  | Json.arr elems => "[" ++ jsonStringifyList elems ++ "]"
  | Json.obj fields => "\x7b" ++ jsonStringifyFields fields ++ "\x7d"

/-- Comma-separated serialization of an array's elements. -/
def jsonStringifyList : List Json → String
  | [] => ""
  | [x] => jsonStringify x
  | x :: y :: rest => jsonStringify x ++ "," ++ jsonStringifyList (y :: rest)

/-- Comma-separated serialization of an object's fields. -/
def jsonStringifyFields : List (String × Json) → String
  | [] => ""
  | [(k, v)] => "\"" ++ k ++ "\":" ++ jsonStringify v
  | (k, v) :: f :: rest =>
      "\"" ++ k ++ "\":" ++ jsonStringify v ++ "," ++ jsonStringifyFields (f :: rest)

end

/-- JavaScript truthiness of a `Json` value. -/
def Json.truthy : Json → Bool
  | Json.null => false
  | Json.bool b => b
  | Json.num n => n != 0
  | Json.str s => s != ""
  | Json.arr _ => true
  | Json.obj _ => true

/-- JavaScript `v || dflt` for an optional value (`none` models `undefined`). -/
def jsOr (v : Option Json) (dflt : Json) : Json :=
  match v with
  | none => dflt
  | some j => if j.truthy then j else dflt

/-- JavaScript `v || dflt` for an optional string (`none` models `undefined`/`null`). -/
def jsOrString (v : Option String) (dflt : String) : String :=
  match v with
  | none => dflt
  | some s => if s = "" then dflt else s

/-- The `Result` entity from `src/models/Result.ts`: nullable success payload
`data` and nullable error payload `error`, both serialized text. -/
structure Result where
  data : Option String := none
  error : Option String := none
deriving DecidableEq

/-- The `Task` entity row from `src/models/Task.ts`. The 1:1 `result` relation is
embedded; the self-referencing `dependant` (consumer) and `dependencies`
relations are represented by foreign keys (row ids). -/
structure Task where
  taskId : Nat := 0
  clientId : String := ""
  status : TaskStatus := TaskStatus.Queued
  workflowId : Nat := 0
  progress : Option String := none
  taskType : String := ""
  stepNumber : Int := 1
  result : Option Result := none
  dependantId : Option Nat := none
  dependencyIds : List Nat := []
deriving DecidableEq

/-- The `Workflow` entity row from `src/models/Workflow.ts`. Its `tasks` relation
is the set of `Task` rows whose `workflowId` matches. -/
structure Workflow where
  workflowId : Nat := 0
  clientId : String := ""
  status : WorkflowStatus := WorkflowStatus.Initial
  finalResult : Option String := none
  input : String := ""
deriving DecidableEq

/-- The persistence layer: the task and workflow tables. -/
structure Store where
  tasks : List Task := []
  workflows : List Workflow := []
deriving DecidableEq

/-- `taskRepository.findOne({ where: { taskId } })`. -/
def findTask (tasks : List Task) (id : Nat) : Option Task :=
  tasks.find? (fun t => t.taskId == id)

/-- `workflowRepository.findOne({ where: { workflowId } })`. -/
def findWorkflow (workflows : List Workflow) (id : Nat) : Option Workflow :=
  workflows.find? (fun w => w.workflowId == id)

/-- `taskRepository.save(task)`: upsert of the row keyed by `taskId`. -/
def saveTask (store : Store) (t : Task) : Store :=
  if store.tasks.any (fun u => u.taskId == t.taskId) then
    { store with tasks := store.tasks.map (fun u => if u.taskId == t.taskId then t else u) }
  else
    { store with tasks := store.tasks ++ [t] }

/-- `workflowRepository.save(workflow)`: upsert of the row keyed by `workflowId`. -/
def saveWorkflow (store : Store) (w : Workflow) : Store :=
  if store.workflows.any (fun u => u.workflowId == w.workflowId) then
    { store with workflows := store.workflows.map (fun u => if u.workflowId == w.workflowId then w else u) }
  else
    { store with workflows := store.workflows ++ [w] }

/-- `JobContext` from `src/jobs/JobContext.ts`: the owning workflow (whose
serialized `input` is the workflow-level input document) and the outputs
collected from the task's dependencies. -/
structure JobContext where
  workflow : Workflow
  dependenciesOutputs : List (Option String)
deriving DecidableEq

/-- The `Job` interface from `src/jobs/Job.ts`: `run(task, context)` either
returns a value (`none` models a job that returns nothing, i.e. `undefined`)
or throws an error with a message. -/
structure Job where
  run : Task → JobContext → Except String (Option Json)

/-- `JobFactory.get` from `src/jobs/JobFactory.ts`, parametrized by the
registry map `reg` (the `jobMap` record): unknown task types throw
`No job found for task type: ...`. -/
def JobFactory.get (reg : String → Option Job) (taskType : String) : Except String Job :=
  match reg taskType with
  | none => Except.error ("No job found for task type: " ++ taskType)
  | some factoryMethod => Except.ok factoryMethod

/-- The statically registered `jobMap` of `src/jobs/JobFactory.ts`, with the four
concrete job implementations (external collaborators) as parameters. -/
def JobFactory.jobMap (analysis notification polygonArea reportGeneration : Job) :
    String → Option Job :=
  fun taskType =>
    match taskType with
    | "analysis" => some analysis
    | "notification" => some notification
    | "polygonArea" => some polygonArea
    | "reportGeneration" => some reportGeneration
    | _ => none

/-- `WorkflowReportGenerator.stringifyTask` from `src/utils/workflowReportGenerator.ts`. -/
def WorkflowReportGenerator.stringifyTask (task : Task) : String :=
  "Task ID: " ++ toString task.taskId ++ ", " ++
  "Type: " ++ task.taskType ++ ", " ++
  "Status: " ++ task.status.toStringVal ++ ", " ++
  "Result: " ++ jsOrString (task.result.bind Result.data) "none" ++ ", " ++
  "Error: " ++ jsOrString (task.result.bind Result.error) "none"

/-- `WorkflowReportGenerator.generateAggregatedReport`; `tasks` is the
workflow's loaded `tasks` relation. -/
def WorkflowReportGenerator.generateAggregatedReport (workflow : Workflow) (tasks : List Task) :
    String :=
  "Workflow report:\n" ++
  "Workflow ID: " ++ toString workflow.workflowId ++ ".\n" ++
  "Status: " ++ workflow.status.toStringVal ++ ".\n" ++
  "Tasks:\n" ++
  String.intercalate "\n" (tasks.map (fun task => "\t" ++ WorkflowReportGenerator.stringifyTask task))

/-- The `dependencies` relation of a task, resolved against the task table. -/
def loadDependencies (tasks : List Task) (task : Task) : List Task :=
  task.dependencyIds.filterMap (fun id => findTask tasks id)

/-- `TaskRunner.getJobContext` from `src/workers/taskRunner.ts`: collects
`dependency.result?.data` for each dependency of the task, and pairs these
outputs with the task's workflow. -/
def TaskRunner.getJobContext (tasks : List Task) (workflow : Workflow) (task : Task) :
    JobContext :=
  let dependenciesOutputs :=
    (loadDependencies tasks task).map (fun dependency => dependency.result.bind Result.data)
  { workflow := workflow, dependenciesOutputs := dependenciesOutputs }

/-- The first mutation `TaskRunner.run` applies to its task:
`task.status = InProgress; task.progress = 'starting job...'`. -/
def TaskRunner.runningTask (task : Task) : Task :=
  { task with status := TaskStatus.InProgress, progress := some "starting job..." }

/-- The observable outcome of one `TaskRunner.run` call: the store after all
saves, the `Result` row saved by the `finally` block (if the run got that far),
and the error propagated to the caller (if any). -/
structure RunOutcome where
  store : Store
  savedResult : Option Result
  thrown : Option String
deriving DecidableEq

/-- `TaskRunner.run` from `src/workers/taskRunner.ts`, one task execution.
`task` is the entity handed over by the worker, `dependant` its loaded
`dependant` (consumer) relation and `workflow` its loaded `workflow` relation.

Control flow mirrors the source exactly:
  1. mark the task InProgress and save it;
  2. resolve the job via `JobFactory.get` — outside the `try`, so an unknown
     task type propagates before any further bookkeeping;
  3. on job success set `result.data` to `JSON.stringify(taskResult || {})`,
     mark the task Completed, clear progress;
  4. on job failure mark the task Failed, clear progress, mark the dependant
     Skipped, set `result.error`;
  5. `finally`: save result, task, and dependant (if present);
  6. only when no error is propagating: re-read the workflow with its tasks,
     recompute its status (`anyFailed` → Failed, else `allCompleted` →
     Completed, else InProgress), regenerate the final report, save it.
The `throw error` in the `catch` block makes step 6 unreachable on failure. -/
def TaskRunner.run (reg : String → Option Job) (task : Task) (dependant : Option Task)
    (workflow : Workflow) (store : Store) : RunOutcome :=
  let task1 := TaskRunner.runningTask task
  let store1 := saveTask store task1
  match JobFactory.get reg task1.taskType with
  | Except.error msg =>
      { store := store1, savedResult := none, thrown := some msg }
  | Except.ok job =>
      let result : Result := {}
      let context := TaskRunner.getJobContext store1.tasks workflow task1
      match job.run task1 context with
      | Except.ok taskResult =>
          let result := { result with data := some (jsonStringify (jsOr taskResult (Json.obj []))) }
          let task2 := { task1 with
                          result := some result,
                          status := TaskStatus.Completed,
                          progress := none }
          let store2 := saveTask store1 task2
          let store3 := match dependant with
                        | some d => saveTask store2 d
                        | none => store2
          let store4 := match findWorkflow store3.workflows task2.workflowId with
                        | none => store3
                        | some currentWorkflow =>
                            let wfTasks := store3.tasks.filter
                              (fun t => t.workflowId == currentWorkflow.workflowId)
                            let allCompleted := wfTasks.all (fun t => t.status == TaskStatus.Completed)
                            let anyFailed := wfTasks.any (fun t => t.status == TaskStatus.Failed)
                            let newStatus := if anyFailed then WorkflowStatus.Failed
                                             else if allCompleted then WorkflowStatus.Completed
                                             else WorkflowStatus.InProgress
                            let wf1 := { currentWorkflow with status := newStatus }
                            let wf2 := { wf1 with
                                          finalResult := some (WorkflowReportGenerator.generateAggregatedReport wf1 wfTasks) }
                            saveWorkflow store3 wf2
          { store := store4, savedResult := some result, thrown := none }
      | Except.error msg =>
          let task2 := { task1 with status := TaskStatus.Failed, progress := none }
          let dependant1 := dependant.map (fun d => { d with status := TaskStatus.Skipped })
          let result := { result with error := some msg }
          let store2 := saveTask store1 task2
          let store3 := match dependant1 with
                        | some d => saveTask store2 d
                        | none => store2
          { store := store3, savedResult := some result, thrown := some msg }

/-- The aggregate workflow status as the specification states it: Failed if any
task is Failed; else Completed if every task is Completed; else InProgress.
Stated over the task statuses only, to compare with what `TaskRunner.run`
computes. -/
def specAggregateStatus (statuses : List TaskStatus) : WorkflowStatus :=
  if statuses.any (fun s => s == TaskStatus.Failed) then WorkflowStatus.Failed
  else if statuses.all (fun s => s == TaskStatus.Completed) then WorkflowStatus.Completed
  else WorkflowStatus.InProgress

/-- A step of a workflow definition, from `src/workflows/WorkflowFactory.ts`.
`stepNumber` is `Option Int`: `none` models a step number missing from the
YAML (`undefined`). `dependsOn` is already normalized to a list (the factory's
`parseWorkflowDefinition` wraps a single number into an array). -/
structure WorkflowStep where
  taskType : String := ""
  stepNumber : Option Int := none
  dependsOn : Option (List Int) := none
deriving DecidableEq

/-- A parsed workflow definition. -/
structure WorkflowDefinition where
  name : String := ""
  steps : List WorkflowStep := []
deriving DecidableEq

/-- The per-step checks of `WorkflowFactory.validateWorkflowDefinition`, in
source order. JavaScript `!step.taskType` is true exactly for the empty (or
missing) string; `!step.stepNumber` is true exactly for a missing or zero step
number — which is why `stepNumber.getD 0 = 0` is its translation. The
dependency check runs only when `step.dependsOn` is present (a present empty
array is truthy and its `.some` is false). -/
def WorkflowFactory.validateStep (step : WorkflowStep) : Except String Unit :=
  if step.taskType = "" then Except.error ("Task type is required")
  else if step.stepNumber.getD 0 = 0 then Except.error ("Step number is required")
  else
    match step.dependsOn with
    | none => Except.ok ()
    | some deps =>
        if deps.any (fun stepNumber => stepNumber ≥ step.stepNumber.getD 0) then
          Except.error ("Step can not depend on other steps that come after it")
        else Except.ok ()

/-- The `steps.forEach` loop of `validateWorkflowDefinition`: a thrown error
aborts the scan at the first offending step. -/
def WorkflowFactory.validateSteps : List WorkflowStep → Except String Unit
  | [] => Except.ok ()
  | step :: rest =>
      match WorkflowFactory.validateStep step with
      | Except.error e => Except.error e
      | Except.ok _ => WorkflowFactory.validateSteps rest

/-- `WorkflowFactory.validateWorkflowDefinition`: the per-step scan, then the
duplicate check (`new Set(stepNumbers).size !== stepNumbers.length` holds
exactly when the list of raw step numbers has a duplicate). -/
def WorkflowFactory.validateWorkflowDefinition (workflowDefinition : WorkflowDefinition) :
    Except String Unit :=
  match WorkflowFactory.validateSteps workflowDefinition.steps with
  | Except.error e => Except.error e
  | Except.ok _ =>
      if (workflowDefinition.steps.map (fun step => step.stepNumber)).Nodup then Except.ok ()
      else Except.error ("Step numbers must be unique")

/-- `WorkflowFactory.createWorkflow`: a fresh workflow with the client id,
status Initial and the serialized input. Its id is assigned on save. -/
def WorkflowFactory.createWorkflow (clientId : String) (input : Json) : Workflow :=
  { workflowId := 0
    clientId := clientId
    status := WorkflowStatus.Initial
    finalResult := none
    input := jsonStringify input }

/-- `WorkflowFactory.createTasks`: one Queued task per step, inheriting the
workflow's client id and workflow id and carrying the step's task type and
step number. (`stepNumber.getD 0` totalizes the assignment; validation has
already ruled out a missing step number on every path that reaches this.) -/
def WorkflowFactory.createTasks (workflowDef : WorkflowDefinition) (workflow : Workflow) :
    List Task :=
  workflowDef.steps.map (fun step =>
    { taskId := 0
      clientId := workflow.clientId
      status := TaskStatus.Queued
      workflowId := workflow.workflowId
      progress := none
      taskType := step.taskType
      stepNumber := step.stepNumber.getD 0
      result := none
      dependantId := none
      dependencyIds := [] })

/-- `WorkflowFactory.populateDependencies`: for each step with a `dependsOn`
list, set the matching task's `dependencies` to the tasks whose step numbers
are listed. Setting that relation makes each of those upstream rows carry this
downstream task as its `dependant` (the foreign key lives on the upstream
side), which is the skip-propagation edge `TaskRunner.run` uses. The fold
mirrors the in-place mutation of the shared `tasks` array. -/
def WorkflowFactory.populateDependencies (workflowDef : WorkflowDefinition) (tasks : List Task) :
    List Task :=
  workflowDef.steps.foldl
    (fun acc step =>
      match step.dependsOn with
      | none => acc
      | some deps =>
          let sn := step.stepNumber.getD 0
          let downstreamId := (acc.find? (fun t => t.stepNumber == sn)).map Task.taskId
          acc.map (fun t =>
            if t.stepNumber == sn then
              { t with dependencyIds := (acc.filter (fun u => deps.contains u.stepNumber)).map Task.taskId }
            else if deps.contains t.stepNumber then
              { t with dependantId := downstreamId }
            else t))
    tasks

/-- `WorkflowFactory.createWorkflowFromYAML` after parsing: validate, build the
workflow, build and wire the tasks, return the persisted graph. Row ids are
generated at save time; `freshWorkflowId` and `freshTaskId` stand for the
store's id generator (assigning the task ids before the wiring step is
observationally equivalent, since ids are opaque and wiring matches on step
numbers). A validation error propagates before anything is persisted, so the
error case returns no workflow and no tasks. -/
def WorkflowFactory.createWorkflowFromYAML (workflowDefinition : WorkflowDefinition)
    (clientId : String) (input : Json) (freshWorkflowId : Nat) (freshTaskId : Nat → Nat) :
    Except String (Workflow × List Task) :=
  match WorkflowFactory.validateWorkflowDefinition workflowDefinition with
  | Except.error e => Except.error e
  | Except.ok _ =>
      let workflow := WorkflowFactory.createWorkflow clientId input
      let savedWorkflow := { workflow with workflowId := freshWorkflowId }
      let tasks := WorkflowFactory.createTasks workflowDefinition savedWorkflow
      let tasksWithIds := tasks.mapIdx (fun i t => { t with taskId := freshTaskId i })
      let wired := WorkflowFactory.populateDependencies workflowDefinition tasksWithIds
      Except.ok (savedWorkflow, wired)

/-- Strict ordering on the scheduler's sort key `(workflowId asc, stepNumber asc)`
from the `findOne` query in `src/workers/taskWorker.ts`. -/
def taskKeyLt (a b : Task) : Prop :=
  a.workflowId < b.workflowId ∨ (a.workflowId = b.workflowId ∧ a.stepNumber < b.stepNumber)

/-- Reflexive ordering on the scheduler's sort key. -/
def taskKeyLe (a b : Task) : Prop :=
  a.workflowId < b.workflowId ∨ (a.workflowId = b.workflowId ∧ a.stepNumber ≤ b.stepNumber)

instance (a b : Task) : Decidable (taskKeyLt a b) := by
  unfold taskKeyLt; infer_instance

instance (a b : Task) : Decidable (taskKeyLe a b) := by
  unfold taskKeyLe; infer_instance

/-- The key-minimal row of a list (what `findOne` with an `order` clause
returns on the rows matching the `where` clause). -/
def selectMin : List Task → Option Task
  | [] => none
  | t :: ts =>
      match selectMin ts with
      | none => some t
      | some u => if taskKeyLe t u then some t else some u

/-- The scheduler's task-selection query from `src/workers/taskWorker.ts`:
the Queued task that is minimal in `(workflowId, stepNumber)` order. -/
def taskWorkerSelect (tasks : List Task) : Option Task :=
  selectMin (tasks.filter (fun t => t.status == TaskStatus.Queued))

/-- `Task.isCompleted` from `src/models/Task.ts`: the status is terminal. -/
def Task.isCompleted (task : Task) : Bool :=
  [TaskStatus.Completed, TaskStatus.Failed, TaskStatus.Skipped].contains task.status

/-- `Workflow.isCompleted` from `src/models/Workflow.ts`. -/
def Workflow.isCompleted (workflow : Workflow) : Bool :=
  [WorkflowStatus.Completed, WorkflowStatus.Failed].contains workflow.status

/-- The payload of the `GET /workflow/:id/status` response from
`src/routes/workflowRoutes.ts`; `tasks` is the workflow's eager-loaded `tasks`
relation. -/
structure WorkflowStatusResponse where
  workflowId : Nat
  status : WorkflowStatus
  completedTasks : Nat
  totalTasks : Nat
deriving DecidableEq

/-- The happy-path body of the `GET /workflow/:id/status` handler. -/
def getWorkflowStatusResponse (workflow : Workflow) (tasks : List Task) :
    WorkflowStatusResponse :=
  { workflowId := workflow.workflowId
    status := workflow.status
    completedTasks := (tasks.filter (fun task => task.isCompleted)).length
    totalTasks := tasks.length }

/-! Concrete jobs, tasks, workflows and definitions used to instantiate the
theorems below on explicit inputs. -/

/-- A job that always throws with message `boom`. -/
def failJob : Job := { run := fun _ _ => Except.error ("boom") }

/-- A job that always succeeds returning nothing (`undefined`). -/
def okJob : Job := { run := fun _ _ => Except.ok none }

/-- A job that always succeeds returning the number `0` (a falsy value). -/
def zeroJob : Job := { run := fun _ _ => Except.ok (some (Json.num 0)) }

/-- A registry whose four registered jobs all fail. -/
def regFail : String → Option Job := JobFactory.jobMap failJob failJob failJob failJob

/-- A registry whose four registered jobs all succeed returning nothing. -/
def regOk : String → Option Job := JobFactory.jobMap okJob okJob okJob okJob

/-- A registry whose four registered jobs all succeed returning `0`. -/
def regZero : String → Option Job := JobFactory.jobMap zeroJob zeroJob zeroJob zeroJob

/-- Step 1 of a two-step workflow; its consumer is task 2. -/
def exTask1 : Task :=
  { taskId := 1, clientId := "c1", status := TaskStatus.Queued, workflowId := 10,
    taskType := "analysis", stepNumber := 1, dependantId := some 2 }

/-- Step 2 of the two-step workflow; depends on task 1. -/
def exTask2 : Task :=
  { taskId := 2, clientId := "c1", status := TaskStatus.Queued, workflowId := 10,
    taskType := "notification", stepNumber := 2, dependencyIds := [1] }

/-- The workflow owning `exTask1` and `exTask2`. -/
def exWorkflow : Workflow :=
  { workflowId := 10, clientId := "c1", status := WorkflowStatus.Initial, input := "\x7b\x7d" }

/-- The store holding the two-step workflow, freshly built. -/
def exStore : Store := { tasks := [exTask1, exTask2], workflows := [exWorkflow] }

/-- A single-task workflow's task. -/
def exTask3 : Task :=
  { taskId := 3, clientId := "c2", status := TaskStatus.Queued, workflowId := 20,
    taskType := "analysis", stepNumber := 1 }

/-- The workflow owning `exTask3`. -/
def exWorkflow20 : Workflow :=
  { workflowId := 20, clientId := "c2", status := WorkflowStatus.InProgress, input := "\x7b\x7d" }

/-- The store holding the single-task workflow. -/
def exStore2 : Store := { tasks := [exTask3], workflows := [exWorkflow20] }

/-- A task whose type is registered in no registry. -/
def exTaskUnknown : Task :=
  { taskId := 4, clientId := "c3", status := TaskStatus.Queued, workflowId := 30,
    taskType := "geocoding", stepNumber := 1 }

/-- The workflow owning `exTaskUnknown`. -/
def exWorkflow30 : Workflow :=
  { workflowId := 30, clientId := "c3", status := WorkflowStatus.Initial, input := "\x7b\x7d" }

/-- The store holding the unknown-type task. -/
def exStore3 : Store := { tasks := [exTaskUnknown], workflows := [exWorkflow30] }

/-- A completed dependency carrying the success payload `"X"`. -/
def exDepDone : Task :=
  { taskId := 1, clientId := "c1", status := TaskStatus.Completed, workflowId := 10,
    taskType := "analysis", stepNumber := 1, dependantId := some 2,
    result := some { data := some "\"X\"", error := none } }

/-- The downstream task of `exDepDone`. -/
def exTask2Dep : Task :=
  { taskId := 2, clientId := "c1", status := TaskStatus.Queued, workflowId := 10,
    taskType := "notification", stepNumber := 2, dependencyIds := [1] }

/-- A definition with a step whose task type is empty. -/
def wdEmptyType : WorkflowDefinition :=
  { name := "w", steps := [{ taskType := "", stepNumber := some 1 }] }

/-- A definition with a step whose step number is missing. -/
def wdNoStep : WorkflowDefinition :=
  { name := "w", steps := [{ taskType := "a", stepNumber := none }] }

/-- A definition with a step depending on a later step. -/
def wdFwdDep : WorkflowDefinition :=
  { name := "w",
    steps := [{ taskType := "a", stepNumber := some 1 },
              { taskType := "b", stepNumber := some 2, dependsOn := some [2] }] }

/-- A definition with a duplicated step number. -/
def wdDup : WorkflowDefinition :=
  { name := "w",
    steps := [{ taskType := "a", stepNumber := some 1 },
              { taskType := "b", stepNumber := some 1 }] }

/-- A definition with a negative step number (and no other irregularity). -/
def wdNegStep : WorkflowDefinition :=
  { name := "w", steps := [{ taskType := "a", stepNumber := some (-1) }] }

/-- A well-formed two-step definition (step 2 depends on step 1). -/
def wdTwoSteps : WorkflowDefinition :=
  { name := "two",
    steps := [{ taskType := "analysis", stepNumber := some 1 },
              { taskType := "notification", stepNumber := some 2, dependsOn := some [1] }] }

/-- A drained upstream task for the scheduler-ordering scenario. -/
def exDep9 : Task :=
  { taskId := 7, clientId := "c9", status := TaskStatus.Completed, workflowId := 1,
    taskType := "analysis", stepNumber := 1, dependantId := some 8 }

/-- The still-Queued downstream task for the scheduler-ordering scenario. -/
def exSel9 : Task :=
  { taskId := 8, clientId := "c9", status := TaskStatus.Queued, workflowId := 1,
    taskType := "notification", stepNumber := 2, dependencyIds := [7] }

/-- A failed task for the status-endpoint scenario. -/
def exFailedTask : Task :=
  { taskId := 11, clientId := "c4", status := TaskStatus.Failed, workflowId := 40,
    taskType := "analysis", stepNumber := 1, dependantId := some 12 }

/-- Its skipped consumer for the status-endpoint scenario. -/
def exSkippedTask : Task :=
  { taskId := 12, clientId := "c4", status := TaskStatus.Skipped, workflowId := 40,
    taskType := "notification", stepNumber := 2, dependencyIds := [11] }

/-- The workflow owning the failed/skipped pair. -/
def exWorkflowC10 : Workflow :=
  { workflowId := 40, clientId := "c4", status := WorkflowStatus.InProgress, input := "\x7b\x7d" }

/-! ### Helper lemmas about the store -/

theorem find?_map_replace (l : List Task) (t : Task)
    (h : l.any (fun u => u.taskId == t.taskId) = true) :
    (l.map (fun u => if u.taskId == t.taskId then t else u)).find?
      (fun u => u.taskId == t.taskId) = some t := by
  induction l with
  | nil => simp at h
  | cons a l ih =>
    rw [List.map_cons]
    by_cases ha : a.taskId = t.taskId
    · rw [if_pos (by simpa using ha), List.find?_cons_of_pos _ (by simp)]
    · rw [if_neg (by simpa using ha), List.find?_cons_of_neg _ (by simpa using ha)]
      apply ih
      simp only [List.any_cons, Bool.or_eq_true, beq_iff_eq] at h
      rcases h with h | h
      · exact absurd h ha
      · simpa using h

theorem find?_append_single (l : List Task) (t : Task)
    (h : l.any (fun u => u.taskId == t.taskId) = false) :
    (l ++ [t]).find? (fun u => u.taskId == t.taskId) = some t := by
  rw [List.find?_append]
  have h1 : l.find? (fun u => u.taskId == t.taskId) = none := by
    rw [List.find?_eq_none]
    intro x hx
    exact (List.any_eq_false.mp h) x hx
  rw [h1]
  simp

theorem findTask_saveTask_self (s : Store) (t : Task) :
    findTask (saveTask s t).tasks t.taskId = some t := by
  unfold saveTask findTask
  by_cases h : s.tasks.any (fun u => u.taskId == t.taskId) = true
  · simp only [h, if_true]
    exact find?_map_replace s.tasks t h
  · simp only [Bool.not_eq_true] at h
    simp only [h, Bool.false_eq_true, if_false]
    exact find?_append_single s.tasks t h

theorem find?_map_replace_ne (l : List Task) (t : Task) (i : Nat) (h : i ≠ t.taskId) :
    (l.map (fun u => if u.taskId == t.taskId then t else u)).find? (fun u => u.taskId == i)
      = l.find? (fun u => u.taskId == i) := by
  induction l with
  | nil => simp
  | cons a l ih =>
    rw [List.map_cons]
    by_cases ha : a.taskId = t.taskId
    · rw [if_pos (by simpa using ha)]
      rw [List.find?_cons_of_neg _ (by simp only [beq_iff_eq]; exact fun hc => h hc.symm),
          List.find?_cons_of_neg _ (by simp only [beq_iff_eq, ha]; exact fun hc => h hc.symm)]
      exact ih
    · rw [if_neg (by simpa using ha)]
      by_cases hai : a.taskId = i
      · rw [List.find?_cons_of_pos _ (by simpa using hai),
            List.find?_cons_of_pos _ (by simpa using hai)]
      · rw [List.find?_cons_of_neg _ (by simpa using hai),
            List.find?_cons_of_neg _ (by simpa using hai)]
        exact ih

theorem find?_append_single_ne (l : List Task) (t : Task) (i : Nat) (h : i ≠ t.taskId) :
    (l ++ [t]).find? (fun u => u.taskId == i) = l.find? (fun u => u.taskId == i) := by
  rw [List.find?_append]
  have h1 : ([t] : List Task).find? (fun u => u.taskId == i) = none := by
    rw [List.find?_eq_none]
    intro x hx
    simp only [List.mem_singleton] at hx
    subst hx
    simp only [beq_iff_eq]
    exact fun hc => h hc.symm
  rw [h1]
  simp

theorem findTask_saveTask_ne (s : Store) (t : Task) (i : Nat) (h : i ≠ t.taskId) :
    findTask (saveTask s t).tasks i = findTask s.tasks i := by
  unfold saveTask findTask
  by_cases hany : s.tasks.any (fun u => u.taskId == t.taskId) = true
  · simp only [hany, if_true]
    exact find?_map_replace_ne s.tasks t i h
  · simp only [Bool.not_eq_true] at hany
    simp only [hany, Bool.false_eq_true, if_false]
    exact find?_append_single_ne s.tasks t i h

theorem saveTask_mem_id (s : Store) (t : Task) (x : Task) (hx : x ∈ (saveTask s t).tasks)
    (hid : x.taskId = t.taskId) : x = t := by
  unfold saveTask at hx
  by_cases hany : s.tasks.any (fun u => u.taskId == t.taskId) = true
  · simp only [hany, if_true] at hx
    obtain ⟨u, _, hu⟩ := List.mem_map.mp hx
    by_cases hu' : u.taskId = t.taskId
    · rw [if_pos (by simpa using hu')] at hu
      exact hu.symm
    · rw [if_neg (by simpa using hu')] at hu
      exact absurd (hu ▸ hid) hu'
  · simp only [Bool.not_eq_true] at hany
    simp only [hany, Bool.false_eq_true, if_false, List.mem_append, List.mem_singleton] at hx
    rcases hx with hx | hx
    · have := (List.any_eq_false.mp hany) x hx
      simp only [beq_iff_eq] at this
      exact absurd hid this
    · exact hx

theorem saveTask_workflows (s : Store) (t : Task) : (saveTask s t).workflows = s.workflows := by
  unfold saveTask
  split <;> rfl

theorem saveWorkflow_tasks (s : Store) (w : Workflow) : (saveWorkflow s w).tasks = s.tasks := by
  unfold saveWorkflow
  split <;> rfl

theorem find?_map_replace_wf (l : List Workflow) (w : Workflow)
    (h : l.any (fun u => u.workflowId == w.workflowId) = true) :
    (l.map (fun u => if u.workflowId == w.workflowId then w else u)).find?
      (fun u => u.workflowId == w.workflowId) = some w := by
  induction l with
  | nil => simp at h
  | cons a l ih =>
    rw [List.map_cons]
    by_cases ha : a.workflowId = w.workflowId
    · rw [if_pos (by simpa using ha), List.find?_cons_of_pos _ (by simp)]
    · rw [if_neg (by simpa using ha), List.find?_cons_of_neg _ (by simpa using ha)]
      apply ih
      simp only [List.any_cons, Bool.or_eq_true, beq_iff_eq] at h
      rcases h with h | h
      · exact absurd h ha
      · simpa using h

theorem find?_append_single_wf (l : List Workflow) (w : Workflow)
    (h : l.any (fun u => u.workflowId == w.workflowId) = false) :
    (l ++ [w]).find? (fun u => u.workflowId == w.workflowId) = some w := by
  rw [List.find?_append]
  have h1 : l.find? (fun u => u.workflowId == w.workflowId) = none := by
    rw [List.find?_eq_none]
    intro x hx
    exact (List.any_eq_false.mp h) x hx
  rw [h1]
  simp

theorem findWorkflow_saveWorkflow_self (s : Store) (w : Workflow) :
    findWorkflow (saveWorkflow s w).workflows w.workflowId = some w := by
  unfold saveWorkflow findWorkflow
  by_cases h : s.workflows.any (fun u => u.workflowId == w.workflowId) = true
  · simp only [h, if_true]
    exact find?_map_replace_wf s.workflows w h
  · simp only [Bool.not_eq_true] at h
    simp only [h, Bool.false_eq_true, if_false]
    exact find?_append_single_wf s.workflows w h

theorem findTask_saveTask_self_at (s : Store) (t : Task) (i : Nat) (h : t.taskId = i) :
    findTask (saveTask s t).tasks i = some t := by
  subst h
  exact findTask_saveTask_self s t

theorem findWorkflow_saveWorkflow_status_at (s : Store) (w : Workflow) (i : Nat)
    (h : w.workflowId = i) :
    (findWorkflow (saveWorkflow s w).workflows i).map Workflow.status = some w.status := by
  subst h
  rw [findWorkflow_saveWorkflow_self]
  rfl

theorem findWorkflow_id (ws : List Workflow) (i : Nat) (w : Workflow)
    (h : findWorkflow ws i = some w) : w.workflowId = i := by
  unfold findWorkflow at h
  have := List.find?_some h
  simpa using this

theorem findTask_id (ts : List Task) (i : Nat) (t : Task)
    (h : findTask ts i = some t) : t.taskId = i := by
  unfold findTask at h
  have := List.find?_some h
  simpa using this

/-! ### Helper lemmas about the scheduler's selection order -/

theorem taskKeyLt_irrefl (a : Task) : ¬ taskKeyLt a a := by
  unfold taskKeyLt
  omega

theorem taskKeyLe_of_lt (a b : Task) (h : taskKeyLt a b) : taskKeyLe a b := by
  unfold taskKeyLt at h
  unfold taskKeyLe
  omega

theorem taskKeyLt_of_lt_of_le (a b c : Task) (h1 : taskKeyLt a b) (h2 : taskKeyLe b c) :
    taskKeyLt a c := by
  unfold taskKeyLt at h1 ⊢
  unfold taskKeyLe at h2
  omega

theorem selectMin_none (l : List Task) (h : selectMin l = none) : l = [] := by
  cases l with
  | nil => rfl
  | cons a l =>
    exfalso
    unfold selectMin at h
    split at h
    · simp at h
    · split at h <;> simp at h

theorem selectMin_mem : ∀ (l : List Task) (t : Task), selectMin l = some t → t ∈ l := by
  intro l
  induction l with
  | nil => intro t h; simp [selectMin] at h
  | cons a l ih =>
    intro t h
    unfold selectMin at h
    split at h
    · simp only [Option.some.injEq] at h
      rw [← h]
      exact List.mem_cons_self a l
    · rename_i u hl
      split at h
      · simp only [Option.some.injEq] at h
        rw [← h]
        exact List.mem_cons_self a l
      · simp only [Option.some.injEq] at h
        rw [← h]
        exact List.mem_cons_of_mem a (ih u hl)

theorem selectMin_not_lt : ∀ (l : List Task) (t : Task), selectMin l = some t →
    ∀ u ∈ l, ¬ taskKeyLt u t := by
  intro l
  induction l with
  | nil => intro t h; simp [selectMin] at h
  | cons a l ih =>
    intro t h u hu
    unfold selectMin at h
    split at h
    · rename_i hl
      simp only [Option.some.injEq] at h
      rw [← h]
      have hnil : l = [] := selectMin_none l hl
      subst hnil
      simp only [List.mem_singleton] at hu
      rw [hu]
      exact taskKeyLt_irrefl a
    · rename_i m hl
      split at h
      · rename_i hle
        simp only [Option.some.injEq] at h
        rw [← h]
        rcases List.mem_cons.mp hu with hu | hu
        · rw [hu]; exact taskKeyLt_irrefl a
        · intro hlt
          exact ih m hl u hu (taskKeyLt_of_lt_of_le u a m hlt hle)
      · rename_i hle
        simp only [Option.some.injEq] at h
        rw [← h]
        rcases List.mem_cons.mp hu with hu | hu
        · rw [hu]
          intro hlt
          exact hle (taskKeyLe_of_lt a m hlt)
        · exact ih m hl u hu

theorem taskWorkerSelect_mem_queued (l : List Task) (t : Task)
    (h : taskWorkerSelect l = some t) : t ∈ l ∧ t.status = TaskStatus.Queued := by
  unfold taskWorkerSelect at h
  have hm := selectMin_mem _ _ h
  have := List.mem_filter.mp hm
  exact ⟨this.1, by simpa using this.2⟩

theorem taskWorkerSelect_min (l : List Task) (t : Task)
    (h : taskWorkerSelect l = some t) (u : Task) (hu : u ∈ l)
    (hq : u.status = TaskStatus.Queued) : ¬ taskKeyLt u t := by
  unfold taskWorkerSelect at h
  exact selectMin_not_lt _ _ h u (List.mem_filter.mpr ⟨hu, by simp [hq]⟩)

/-! ### Helper lemmas about validation -/

theorem validateSteps_ok : ∀ (l : List WorkflowStep),
    WorkflowFactory.validateSteps l = Except.ok () →
    ∀ s ∈ l, WorkflowFactory.validateStep s = Except.ok () := by
  intro l
  induction l with
  | nil => intro _ s hs; simp at hs
  | cons a l ih =>
    intro h s hs
    unfold WorkflowFactory.validateSteps at h
    cases ha : WorkflowFactory.validateStep a with
    | error e => rw [ha] at h; simp at h
    | ok v =>
      rw [ha] at h
      rcases List.mem_cons.mp hs with hs | hs
      · subst hs; cases v; exact ha
      · exact ih h s hs

theorem validateStep_ok (s : WorkflowStep)
    (h : WorkflowFactory.validateStep s = Except.ok ()) :
    s.taskType ≠ "" ∧ s.stepNumber.getD 0 ≠ 0 ∧
    (∀ deps, s.dependsOn = some deps → ∀ d ∈ deps, d < s.stepNumber.getD 0) := by
  unfold WorkflowFactory.validateStep at h
  by_cases h1 : s.taskType = ""
  · rw [if_pos h1] at h; simp at h
  · rw [if_neg h1] at h
    by_cases h2 : s.stepNumber.getD 0 = 0
    · rw [if_pos h2] at h; simp at h
    · rw [if_neg h2] at h
      refine ⟨h1, h2, ?_⟩
      intro deps hdeps d hd
      rw [hdeps] at h
      by_cases h3 : deps.any (fun stepNumber => stepNumber ≥ s.stepNumber.getD 0) = true
      · simp only [h3, if_true] at h; simp at h
      · have h4 := List.any_eq_false.mp (Bool.not_eq_true _ ▸ h3) d hd
        simp only [decide_eq_true_eq] at h4
        omega

theorem validateWorkflowDefinition_ok (wd : WorkflowDefinition)
    (h : WorkflowFactory.validateWorkflowDefinition wd = Except.ok ()) :
    WorkflowFactory.validateSteps wd.steps = Except.ok () ∧
    (wd.steps.map (fun s => s.stepNumber)).Nodup := by
  unfold WorkflowFactory.validateWorkflowDefinition at h
  cases hs : WorkflowFactory.validateSteps wd.steps with
  | error e => rw [hs] at h; simp at h
  | ok v =>
    cases v
    refine ⟨rfl, ?_⟩
    rw [hs] at h
    by_cases hn : (wd.steps.map (fun s => s.stepNumber)).Nodup
    · exact hn
    · rw [if_neg hn] at h; simp at h

theorem except_unit_cases (x : Except String Unit) : x = Except.ok () ∨ ∃ e, x = Except.error e := by
  cases x with
  | error e => exact Or.inr ⟨e, rfl⟩
  | ok v => cases v; exact Or.inl rfl

theorem isCompleted_eq (x : Task) :
    x.isCompleted = (x.status == TaskStatus.Completed || x.status == TaskStatus.Failed ||
      x.status == TaskStatus.Skipped) := by
  cases hx : x.status <;> simp [Task.isCompleted, hx]

theorem validate_ok_shape (wd : WorkflowDefinition)
    (h : WorkflowFactory.validateWorkflowDefinition wd = Except.ok ()) :
    (∀ s ∈ wd.steps, s.taskType ≠ "" ∧ s.stepNumber.getD 0 ≠ 0 ∧
      (∀ deps, s.dependsOn = some deps → ∀ d ∈ deps, d < s.stepNumber.getD 0)) ∧
    (wd.steps.map (fun s => s.stepNumber)).Nodup := by
  obtain ⟨h1, h2⟩ := validateWorkflowDefinition_ok wd h
  exact ⟨fun s hs => validateStep_ok s (validateSteps_ok wd.steps h1 s hs), h2⟩

/-! ### Claim theorems -/

/-- C3: the spec (and the claim) require an unregistered task type to be
recorded as an execution failure (task → Failed, error in its Result). The
code resolves the job *before* the `try` block, so the thrown lookup error
propagates with the task still InProgress, no Result saved and no status
recorded — exactly the baseline defect §4.5.2 of the spec calls out. This
theorem evaluates the runner at such a task: the error is thrown, the task
row stays InProgress with no result, and nothing else is persisted. -/
theorem claim_C3_thm :
    JobFactory.get regOk exTaskUnknown.taskType =
      Except.error ("No job found for task type: geocoding") ∧
    (TaskRunner.run regOk exTaskUnknown none exWorkflow30 exStore3).thrown =
      some ("No job found for task type: geocoding") ∧
    (findTask (TaskRunner.run regOk exTaskUnknown none exWorkflow30 exStore3).store.tasks
        exTaskUnknown.taskId).map Task.status = some TaskStatus.InProgress ∧
    (TaskRunner.run regOk exTaskUnknown none exWorkflow30 exStore3).savedResult = none ∧
    (findTask (TaskRunner.run regOk exTaskUnknown none exWorkflow30 exStore3).store.tasks
        exTaskUnknown.taskId).map Task.result = some none ∧
    (TaskRunner.run regOk exTaskUnknown none exWorkflow30 exStore3).store.workflows =
      exStore3.workflows :=
  ⟨rfl, by decide, by decide, by decide, by decide, by decide⟩

/-- C4: each of the four validation violations is independently rejected —
empty task type, missing/zero step number, a dependency referencing a step
number ≥ its own, duplicate step numbers — with four pairwise-distinct error
messages, and a definition with any violation is rejected by
`createWorkflowFromYAML` before any workflow or task is produced. -/
theorem claim_C4_thm :
    (∀ wd : WorkflowDefinition, (∃ step ∈ wd.steps, step.taskType = "") →
       ∃ e, WorkflowFactory.validateWorkflowDefinition wd = Except.error e) ∧
    (∀ wd : WorkflowDefinition, (∃ step ∈ wd.steps, step.stepNumber.getD 0 = 0) →
       ∃ e, WorkflowFactory.validateWorkflowDefinition wd = Except.error e) ∧
    (∀ wd : WorkflowDefinition, (∃ step ∈ wd.steps, ∃ deps, step.dependsOn = some deps ∧
        ∃ d ∈ deps, d ≥ step.stepNumber.getD 0) →
       ∃ e, WorkflowFactory.validateWorkflowDefinition wd = Except.error e) ∧
    (∀ wd : WorkflowDefinition, ¬ (wd.steps.map (fun s => s.stepNumber)).Nodup →
       ∃ e, WorkflowFactory.validateWorkflowDefinition wd = Except.error e) ∧
    WorkflowFactory.validateWorkflowDefinition wdEmptyType =
      Except.error ("Task type is required") ∧
    WorkflowFactory.validateWorkflowDefinition wdNoStep =
      Except.error ("Step number is required") ∧
    WorkflowFactory.validateWorkflowDefinition wdFwdDep =
      Except.error ("Step can not depend on other steps that come after it") ∧
    WorkflowFactory.validateWorkflowDefinition wdDup =
      Except.error ("Step numbers must be unique") ∧
    ([("Task type is required" : String), "Step number is required",
      "Step can not depend on other steps that come after it",
      "Step numbers must be unique"].Nodup) ∧
    (∀ (wd : WorkflowDefinition) (clientId : String) (input : Json) (wid : Nat)
       (fid : Nat → Nat) (e : String),
       WorkflowFactory.validateWorkflowDefinition wd = Except.error e →
       WorkflowFactory.createWorkflowFromYAML wd clientId input wid fid = Except.error e) := by
  refine ⟨?_, ?_, ?_, ?_, rfl, rfl, rfl, rfl, by decide, ?_⟩
  · intro wd hviol
    rcases except_unit_cases (WorkflowFactory.validateWorkflowDefinition wd) with hok | he
    · obtain ⟨step, hmem, hstep⟩ := hviol
      exact absurd hstep ((validate_ok_shape wd hok).1 step hmem).1
    · exact he
  · intro wd hviol
    rcases except_unit_cases (WorkflowFactory.validateWorkflowDefinition wd) with hok | he
    · obtain ⟨step, hmem, hstep⟩ := hviol
      exact absurd hstep ((validate_ok_shape wd hok).1 step hmem).2.1
    · exact he
  · intro wd hviol
    rcases except_unit_cases (WorkflowFactory.validateWorkflowDefinition wd) with hok | he
    · obtain ⟨step, hmem, deps, hdeps, d, hd, hge⟩ := hviol
      have := ((validate_ok_shape wd hok).1 step hmem).2.2 deps hdeps d hd
      omega
    · exact he
  · intro wd hviol
    rcases except_unit_cases (WorkflowFactory.validateWorkflowDefinition wd) with hok | he
    · exact absurd (validate_ok_shape wd hok).2 hviol
    · exact he
  · intro wd clientId input wid fid e he
    unfold WorkflowFactory.createWorkflowFromYAML
    rw [he]

/-- Witness for C4: the four canonical single-violation definitions are all
rejected, and the rejected duplicate-step definition builds nothing. -/
theorem claim_C4_witness :
    (∃ e, WorkflowFactory.validateWorkflowDefinition wdEmptyType = Except.error e) ∧
    (∃ e, WorkflowFactory.validateWorkflowDefinition wdNoStep = Except.error e) ∧
    (∃ e, WorkflowFactory.validateWorkflowDefinition wdFwdDep = Except.error e) ∧
    (∃ e, WorkflowFactory.validateWorkflowDefinition wdDup = Except.error e) ∧
    WorkflowFactory.createWorkflowFromYAML wdDup "c" Json.null 1 (fun i => i) =
      Except.error ("Step numbers must be unique") := by
  refine ⟨?_, ?_, ?_, ?_, ?_⟩
  · exact claim_C4_thm.1 wdEmptyType ⟨{ taskType := "", stepNumber := some 1 },
      by simp [wdEmptyType], rfl⟩
  · exact claim_C4_thm.2.1 wdNoStep ⟨{ taskType := "a", stepNumber := none },
      by simp [wdNoStep], rfl⟩
  · exact claim_C4_thm.2.2.1 wdFwdDep
      ⟨{ taskType := "b", stepNumber := some 2, dependsOn := some [2] },
        by simp [wdFwdDep], [2], rfl, 2, by simp, by decide⟩
  · exact claim_C4_thm.2.2.2.1 wdDup (by decide)
  · exact claim_C4_thm.2.2.2.2.2.2.2.2.2 wdDup "c" Json.null 1 (fun i => i)
      ("Step numbers must be unique") claim_C4_thm.2.2.2.2.2.2.2.1

/-- C5, counterexample to the claim as stated: a definition whose only step has
the negative step number `-1` passes validation, because the JavaScript check
`!step.stepNumber` only catches a missing or zero number; the claim says a
negative step number must be rejected. -/
theorem claim_C5_counterexample :
    WorkflowFactory.validateWorkflowDefinition wdNegStep = Except.ok () ∧
    wdNegStep.steps.map (fun s => s.stepNumber) = [some (-1)] :=
  ⟨rfl, rfl⟩

/-- C5 (amended): a definition containing a step whose step number is absent or
zero fails validation, and every definition that passes validation has only
present, nonzero step numbers — negative step numbers are accepted. -/
theorem claim_C5_thm :
    (∀ wd : WorkflowDefinition,
       (∃ step ∈ wd.steps, step.stepNumber = none ∨ step.stepNumber = some 0) →
       ∃ e, WorkflowFactory.validateWorkflowDefinition wd = Except.error e) ∧
    (∀ wd : WorkflowDefinition, WorkflowFactory.validateWorkflowDefinition wd = Except.ok () →
       ∀ step ∈ wd.steps, step.stepNumber ≠ none ∧ step.stepNumber ≠ some 0) := by
  constructor
  · intro wd hviol
    rcases except_unit_cases (WorkflowFactory.validateWorkflowDefinition wd) with hok | he
    · obtain ⟨step, hmem, hstep⟩ := hviol
      have := ((validate_ok_shape wd hok).1 step hmem).2.1
      rcases hstep with hstep | hstep <;> rw [hstep] at this <;> simp at this
    · exact he
  · intro wd hok step hmem
    have := ((validate_ok_shape wd hok).1 step hmem).2.1
    constructor
    · intro hc; rw [hc] at this; simp at this
    · intro hc; rw [hc] at this; simp at this

/-- Witness for C5 (amended): the missing-step-number definition is rejected,
and step 1 of a validated definition indeed carries a present number. -/
theorem claim_C5_witness :
    (∃ e, WorkflowFactory.validateWorkflowDefinition wdNoStep = Except.error e) ∧
    (({ taskType := "analysis", stepNumber := some 1 } : WorkflowStep).stepNumber ≠ none) := by
  constructor
  · exact claim_C5_thm.1 wdNoStep ⟨{ taskType := "a", stepNumber := none },
      by simp [wdNoStep], Or.inl rfl⟩
  · exact (claim_C5_thm.2 wdTwoSteps rfl { taskType := "analysis", stepNumber := some 1 }
      (by simp [wdTwoSteps])).1

/-- C6: for a valid definition with N steps the builder produces one workflow
with status Initial and the input serialized verbatim, and N tasks in index
one-to-one correspondence with the steps, each Queued and carrying the step's
task type and step number and the workflow's client id and workflow id. -/
theorem claim_C6_thm (wd : WorkflowDefinition) (clientId : String) (input : Json)
    (wf : Workflow)
    (hval : WorkflowFactory.validateWorkflowDefinition wd = Except.ok ()) :
    (WorkflowFactory.createWorkflow clientId input).status = WorkflowStatus.Initial ∧
    (WorkflowFactory.createWorkflow clientId input).input = jsonStringify input ∧
    (WorkflowFactory.createWorkflow clientId input).clientId = clientId ∧
    (WorkflowFactory.createTasks wd wf).length = wd.steps.length ∧
    (∀ (i : Nat) (step : WorkflowStep), wd.steps[i]? = some step →
       ((WorkflowFactory.createTasks wd wf)[i]?.map Task.status = some TaskStatus.Queued ∧
        (WorkflowFactory.createTasks wd wf)[i]?.map Task.taskType = some step.taskType ∧
        (WorkflowFactory.createTasks wd wf)[i]?.map Task.stepNumber =
          some (step.stepNumber.getD 0) ∧
        (WorkflowFactory.createTasks wd wf)[i]?.map Task.clientId = some wf.clientId ∧
        (WorkflowFactory.createTasks wd wf)[i]?.map Task.workflowId = some wf.workflowId)) := by
  refine ⟨rfl, rfl, rfl, by simp [WorkflowFactory.createTasks], ?_⟩
  intro i step hstep
  unfold WorkflowFactory.createTasks
  rw [List.getElem?_map, hstep]
  exact ⟨rfl, rfl, rfl, rfl, rfl⟩

/-- Witness for C6: the valid two-step definition builds two Queued tasks whose
first task carries the first step's type and number and the workflow's ids. -/
theorem claim_C6_witness :
    (WorkflowFactory.createWorkflow "c1" (Json.obj [])).status = WorkflowStatus.Initial ∧
    (WorkflowFactory.createTasks wdTwoSteps exWorkflow20).length = wdTwoSteps.steps.length ∧
    (WorkflowFactory.createTasks wdTwoSteps exWorkflow20)[0]?.map Task.taskType =
      some "analysis" ∧
    (WorkflowFactory.createTasks wdTwoSteps exWorkflow20)[0]?.map Task.status =
      some TaskStatus.Queued := by
  have h := claim_C6_thm wdTwoSteps "c1" (Json.obj []) exWorkflow20 rfl
  have h0 := h.2.2.2.2 0 { taskType := "analysis", stepNumber := some 1 } rfl
  exact ⟨h.1, h.2.2.2.1, h0.2.1, h0.1⟩

/-- C7: the execution context built for a task consists of the task's workflow
(carrying the input document) and, position by position, the success payload
`Result.data` of each loaded dependency (never the error payload); in the
concrete two-step graph where step 1 succeeded with payload `"X"`, step 2's
upstream-outputs collection is exactly `["X"]`. -/
theorem claim_C7_thm :
    (∀ (tasks : List Task) (workflow : Workflow) (task : Task),
       (TaskRunner.getJobContext tasks workflow task).workflow = workflow) ∧
    (∀ (tasks : List Task) (workflow : Workflow) (task : Task) (i : Nat) (d : Task),
       (loadDependencies tasks task)[i]? = some d →
       (TaskRunner.getJobContext tasks workflow task).dependenciesOutputs[i]? =
         some (d.result.bind Result.data)) ∧
    (∀ (tasks : List Task) (workflow : Workflow) (task : Task) (i : Nat) (d : Task)
       (r : Result),
       (loadDependencies tasks task)[i]? = some d → d.result = some r →
       (TaskRunner.getJobContext tasks workflow task).dependenciesOutputs[i]? =
         some r.data) ∧
    ((TaskRunner.getJobContext [exDepDone, exTask2Dep] exWorkflow exTask2Dep).dependenciesOutputs
       = [some "\"X\""]) := by
  refine ⟨fun _ _ _ => rfl, ?_, ?_, by decide⟩
  · intro tasks workflow task i d hd
    unfold TaskRunner.getJobContext
    rw [List.getElem?_map, hd]
    rfl
  · intro tasks workflow task i d r hd hr
    unfold TaskRunner.getJobContext
    rw [List.getElem?_map, hd]
    simp [hr]

/-- Witness for C7: in the concrete store, position 0 of step 2's context is
its dependency's `Result.data`. -/
theorem claim_C7_witness :
    (TaskRunner.getJobContext [exDepDone, exTask2Dep] exWorkflow exTask2Dep).dependenciesOutputs[0]?
      = some (exDepDone.result.bind Result.data) :=
  claim_C7_thm.2.1 [exDepDone, exTask2Dep] exWorkflow exTask2Dep 0 exDepDone (by decide)

/-- C9: whenever the scheduler's query selects a task (the Queued task minimal
in `(workflowId, stepNumber)` order), no upstream dependency of that task in
the same workflow is still Queued: a Queued dependency would have a strictly
smaller sort key (same workflow id, smaller step number — guaranteed by
validation rule 3 and the builder's same-workflow wiring) and would have been
returned instead. -/
theorem claim_C9_thm (tasks : List Task) (t d : Task)
    (hsel : taskWorkerSelect tasks = some t)
    (hmem : d ∈ tasks) (hdep : d.taskId ∈ t.dependencyIds)
    (hwf : d.workflowId = t.workflowId) (hstep : d.stepNumber < t.stepNumber) :
    d.status ≠ TaskStatus.Queued := by
  intro hq
  have hmin := taskWorkerSelect_min tasks t hsel d hmem hq
  exact hmin (by unfold taskKeyLt; exact Or.inr ⟨hwf, hstep⟩)

/-- Witness for C9: with the upstream task drained (Completed) and the
downstream task Queued, the query selects the downstream task and its
dependency is indeed no longer Queued. -/
theorem claim_C9_witness :
    taskWorkerSelect [exDep9, exSel9] = some exSel9 ∧
    exDep9.status ≠ TaskStatus.Queued := by
  have hsel : taskWorkerSelect [exDep9, exSel9] = some exSel9 := by decide
  exact ⟨hsel, claim_C9_thm [exDep9, exSel9] exSel9 exDep9 hsel (by decide) (by decide)
    (by decide) (by decide)⟩

/-- C10: the status endpoint's completed-task count counts every task whose
status is terminal — Completed, Failed or Skipped — not only Completed tasks;
a workflow with one Failed task and its Skipped consumer reports both of its
tasks as completed. -/
theorem claim_C10_thm :
    (∀ (workflow : Workflow) (tasks : List Task),
       (getWorkflowStatusResponse workflow tasks).completedTasks =
         (tasks.filter (fun t => t.status == TaskStatus.Completed ||
            t.status == TaskStatus.Failed || t.status == TaskStatus.Skipped)).length ∧
       (getWorkflowStatusResponse workflow tasks).totalTasks = tasks.length) ∧
    (getWorkflowStatusResponse exWorkflowC10 [exFailedTask, exSkippedTask]).completedTasks = 2 ∧
    (getWorkflowStatusResponse exWorkflowC10 [exFailedTask, exSkippedTask]).totalTasks = 2 := by
  refine ⟨?_, by decide, by decide⟩
  intro workflow tasks
  refine ⟨?_, rfl⟩
  show (tasks.filter (fun task => task.isCompleted)).length = _
  congr 1
  apply List.filter_congr
  intro x _
  exact isCompleted_eq x

theorem any_map_general {α β : Type} (f : α → β) (l : List α) (p : β → Bool) :
    (l.map f).any p = l.any (fun x => p (f x)) := by
  induction l with
  | nil => rfl
  | cons a l ih => simp [List.any_cons, ih]

theorem all_map_general {α β : Type} (f : α → β) (l : List α) (p : β → Bool) :
    (l.map f).all p = l.all (fun x => p (f x)) := by
  induction l with
  | nil => rfl
  | cons a l ih => simp [List.all_cons, ih]

theorem specAggregateStatus_map (tasks : List Task) :
    specAggregateStatus (tasks.map Task.status) =
      (if tasks.any (fun t => t.status == TaskStatus.Failed) then WorkflowStatus.Failed
       else if tasks.all (fun t => t.status == TaskStatus.Completed) then WorkflowStatus.Completed
       else WorkflowStatus.InProgress) := by
  unfold specAggregateStatus
  rw [any_map_general, all_map_general]

/-- C1, counterexample to the claim as stated: in the two-step workflow where
step 1's job throws `boom`, the task is Failed, its Result records the error
and the consumer is Skipped — but the `throw error` in the `catch` block
re-raises before the workflow recompute runs, so the workflow's status stays
`Initial`, not `Failed` as the claim asserts. -/
theorem claim_C1_counterexample :
    (TaskRunner.run regFail exTask1 (some exTask2) exWorkflow exStore).thrown = some "boom" ∧
    (findTask (TaskRunner.run regFail exTask1 (some exTask2) exWorkflow exStore).store.tasks
        1).map Task.status = some TaskStatus.Failed ∧
    (findTask (TaskRunner.run regFail exTask1 (some exTask2) exWorkflow exStore).store.tasks
        2).map Task.status = some TaskStatus.Skipped ∧
    (findWorkflow (TaskRunner.run regFail exTask1 (some exTask2) exWorkflow exStore).store.workflows
        10).map Workflow.status = some WorkflowStatus.Initial ∧
    WorkflowStatus.Initial ≠ WorkflowStatus.Failed := by
  refine ⟨by decide, by decide, by decide, by decide, by decide⟩

/-- C1 (amended): when a task's job raises an error, the task ends Failed with
the error message recorded in the freshly saved Result, its consumer (if any)
is Skipped and can never again be selected by the scheduler's Queued-only
query (so its job is never invoked), and the error is re-raised — which skips
the aggregate recompute, leaving the owning workflow's status unchanged
rather than setting it to Failed. -/
theorem claim_C1_thm (reg : String → Option Job) (task : Task) (dependant : Option Task)
    (workflow : Workflow) (store : Store) (job : Job) (msg : String)
    (hget : JobFactory.get reg task.taskType = Except.ok job)
    (hjob : ∀ t c, job.run t c = Except.error msg)
    (hne : ∀ d, dependant = some d → d.taskId ≠ task.taskId) :
    (findTask (TaskRunner.run reg task dependant workflow store).store.tasks task.taskId).map
        Task.status = some TaskStatus.Failed ∧
    (TaskRunner.run reg task dependant workflow store).savedResult =
      some { data := none, error := some msg } ∧
    (∀ d, dependant = some d →
       ∀ u ∈ (TaskRunner.run reg task dependant workflow store).store.tasks,
         u.taskId = d.taskId → u.status = TaskStatus.Skipped) ∧
    (∀ d, dependant = some d →
       ∀ u, taskWorkerSelect (TaskRunner.run reg task dependant workflow store).store.tasks =
           some u → u.taskId ≠ d.taskId) ∧
    (TaskRunner.run reg task dependant workflow store).store.workflows = store.workflows ∧
    (TaskRunner.run reg task dependant workflow store).thrown = some msg := by
  simp only [TaskRunner.run, TaskRunner.runningTask, hget, hjob]
  cases dependant with
  | none =>
    simp only [Option.map_none']
    refine ⟨?_, by trivial, ?_, ?_, ?_, by trivial⟩
    · have h1 := findTask_saveTask_self (saveTask store
        { task with status := TaskStatus.InProgress, progress := some "starting job..." })
        { task with status := TaskStatus.Failed, progress := none }
      simp only [] at h1
      rw [h1]
      rfl
    · intro d hd; exact absurd hd (by simp)
    · intro d hd; exact absurd hd (by simp)
    · rw [saveTask_workflows, saveTask_workflows]
  | some d =>
    simp only [Option.map_some']
    refine ⟨?_, by trivial, ?_, ?_, ?_, by trivial⟩
    · rw [findTask_saveTask_ne _ _ _ (by simpa using fun hc => hne d rfl hc.symm)]
      have h1 := findTask_saveTask_self (saveTask store
        { task with status := TaskStatus.InProgress, progress := some "starting job..." })
        { task with status := TaskStatus.Failed, progress := none }
      simp only [] at h1
      rw [h1]
      rfl
    · intro d2 hd2 u hu hid
      have hd2' : d2 = d := by injection hd2 with h; exact h.symm
      subst hd2'
      have := saveTask_mem_id _ { d2 with status := TaskStatus.Skipped } u hu (by simpa using hid)
      rw [this]
    · intro d2 hd2 u hu hid
      have hd2' : d2 = d := by injection hd2 with h; exact h.symm
      subst hd2'
      obtain ⟨humem, huq⟩ := taskWorkerSelect_mem_queued _ _ hu
      have := saveTask_mem_id _ { d2 with status := TaskStatus.Skipped } u humem
        (by simpa using hid)
      rw [this] at huq
      simp at huq
    · rw [saveTask_workflows, saveTask_workflows, saveTask_workflows]

/-- Witness for C1 (amended) at the concrete failing two-step workflow. -/
theorem claim_C1_witness :
    (findTask (TaskRunner.run regFail exTask1 (some exTask2) exWorkflow exStore).store.tasks
        exTask1.taskId).map Task.status = some TaskStatus.Failed ∧
    (TaskRunner.run regFail exTask1 (some exTask2) exWorkflow exStore).savedResult =
      some { data := none, error := some "boom" } ∧
    (TaskRunner.run regFail exTask1 (some exTask2) exWorkflow exStore).store.workflows =
      exStore.workflows := by
  have h := claim_C1_thm regFail exTask1 (some exTask2) exWorkflow exStore failJob "boom" rfl
      (fun _ _ => rfl) (fun d hd => by injection hd with h2; rw [← h2]; decide)
  exact ⟨h.1, h.2.1, h.2.2.2.2.1⟩

/-- C2, counterexample to the claim as stated: after the failing task execution
of the two-step workflow, the workflow's stored status is still `Initial`,
while the pure function of its tasks' statuses (one task Failed) is `Failed`
— the re-raised error skipped the recompute. -/
theorem claim_C2_counterexample :
    (findWorkflow (TaskRunner.run regFail exTask1 (some exTask2) exWorkflow exStore).store.workflows
        10).map Workflow.status = some WorkflowStatus.Initial ∧
    specAggregateStatus (((TaskRunner.run regFail exTask1 (some exTask2) exWorkflow
        exStore).store.tasks.filter (fun t => t.workflowId == 10)).map Task.status) =
      WorkflowStatus.Failed ∧
    WorkflowStatus.Initial ≠ WorkflowStatus.Failed := by
  refine ⟨by decide, by decide, by decide⟩

/-- C2 (amended): after every *successful* task execution the owning workflow's
status equals the spec's pure function of its tasks' statuses — Failed if any
task is Failed, else Completed if all are Completed, else InProgress (Skipped
satisfies neither branch); after a *failing* execution the workflow table is
untouched, because the re-raised error skips the recompute. -/
theorem claim_C2_thm (reg : String → Option Job) (task : Task) (dependant : Option Task)
    (workflow : Workflow) (store : Store) (job : Job)
    (hget : JobFactory.get reg task.taskType = Except.ok job) :
    (∀ v, (∀ t c, job.run t c = Except.ok v) →
       ∀ cw, findWorkflow store.workflows task.workflowId = some cw →
       (findWorkflow (TaskRunner.run reg task dependant workflow store).store.workflows
           task.workflowId).map Workflow.status
         = some (specAggregateStatus
             (((TaskRunner.run reg task dependant workflow store).store.tasks.filter
                (fun t => t.workflowId == task.workflowId)).map Task.status))) ∧
    (∀ msg, (∀ t c, job.run t c = Except.error msg) →
       (TaskRunner.run reg task dependant workflow store).store.workflows = store.workflows) := by
  constructor
  · intro v hjob cw hfind
    have hcw : cw.workflowId = task.workflowId := findWorkflow_id _ _ _ hfind
    simp only [TaskRunner.run, TaskRunner.runningTask, hget, hjob]
    cases dependant with
    | none =>
      simp only [saveTask_workflows, hfind]
      rw [findWorkflow_saveWorkflow_status_at, saveWorkflow_tasks, specAggregateStatus_map]
      all_goals simp only [hcw]
    | some d =>
      simp only [saveTask_workflows, hfind]
      rw [findWorkflow_saveWorkflow_status_at, saveWorkflow_tasks, specAggregateStatus_map]
      all_goals simp only [hcw]
  · intro msg hjob
    simp only [TaskRunner.run, TaskRunner.runningTask, hget, hjob]
    cases dependant with
    | none =>
      simp only [Option.map_none']
      rw [saveTask_workflows, saveTask_workflows]
    | some d =>
      simp only [Option.map_some']
      rw [saveTask_workflows, saveTask_workflows, saveTask_workflows]

/-- Witness for C2 (amended): a successful single-task run recomputes the
workflow status to the pure aggregate of its tasks' statuses. -/
theorem claim_C2_witness :
    (findWorkflow (TaskRunner.run regOk exTask3 none exWorkflow20 exStore2).store.workflows
        exTask3.workflowId).map Workflow.status
      = some (specAggregateStatus
          (((TaskRunner.run regOk exTask3 none exWorkflow20 exStore2).store.tasks.filter
             (fun t => t.workflowId == exTask3.workflowId)).map Task.status)) :=
  (claim_C2_thm regOk exTask3 none exWorkflow20 exStore2 okJob rfl).1 none
    (fun _ _ => rfl) exWorkflow20 rfl

/-- C8, counterexample to the claim as stated: a job that succeeds returning
the number `0` — a value, not "nothing" — still yields the empty-object
payload, because `JSON.stringify(taskResult || {})` replaces every falsy
return value by `{}`; the claimed "empty-object payload exactly when the job
returns nothing" is violated, and the payload is not the serialization of the
returned value. -/
theorem claim_C8_counterexample :
    (TaskRunner.run regZero exTask3 none exWorkflow20 exStore2).savedResult =
      some { data := some "\x7b\x7d", error := none } ∧
    jsonStringify (Json.num 0) = "0" ∧
    ("\x7b\x7d" : String) ≠ "0" := by
  refine ⟨by decide, rfl, by decide⟩

/-- C8 (amended): when a task's job succeeds, the new Result's success payload
is `JSON.stringify(taskResult || {})` — the serialization of the returned
value when that value is truthy, and the empty-object serialization when the
job returns nothing *or any falsy value* — the task becomes Completed and its
progress note is cleared. -/
theorem claim_C8_thm (reg : String → Option Job) (task : Task) (dependant : Option Task)
    (workflow : Workflow) (store : Store) (job : Job) (v : Option Json)
    (hget : JobFactory.get reg task.taskType = Except.ok job)
    (hjob : ∀ t c, job.run t c = Except.ok v)
    (hne : ∀ d, dependant = some d → d.taskId ≠ task.taskId) :
    (TaskRunner.run reg task dependant workflow store).savedResult =
      some { data := some (jsonStringify (jsOr v (Json.obj []))), error := none } ∧
    (findTask (TaskRunner.run reg task dependant workflow store).store.tasks task.taskId).map
        Task.status = some TaskStatus.Completed ∧
    (findTask (TaskRunner.run reg task dependant workflow store).store.tasks task.taskId).map
        Task.progress = some none ∧
    (v = none → jsOr v (Json.obj []) = Json.obj []) ∧
    (∀ j, v = some j → j.truthy = true → jsOr v (Json.obj []) = j) := by
  have hfindtask : (findTask (TaskRunner.run reg task dependant workflow store).store.tasks
      task.taskId).map Task.status = some TaskStatus.Completed ∧
      (findTask (TaskRunner.run reg task dependant workflow store).store.tasks
      task.taskId).map Task.progress = some none := by
    simp only [TaskRunner.run, TaskRunner.runningTask, hget, hjob]
    cases dependant with
    | none =>
      simp only [saveTask_workflows]
      cases hf : findWorkflow store.workflows task.workflowId with
      | none =>
        simp only [hf]
        rw [findTask_saveTask_self_at]
        · exact ⟨rfl, rfl⟩
        · rfl
      | some cw =>
        simp only [hf, saveWorkflow_tasks]
        rw [findTask_saveTask_self_at]
        · exact ⟨rfl, rfl⟩
        · rfl
    | some d =>
      simp only [saveTask_workflows]
      cases hf : findWorkflow store.workflows task.workflowId with
      | none =>
        simp only [hf]
        rw [findTask_saveTask_ne _ _ _ (fun hc => hne d rfl hc.symm), findTask_saveTask_self_at]
        · exact ⟨rfl, rfl⟩
        · rfl
      | some cw =>
        simp only [hf, saveWorkflow_tasks]
        rw [findTask_saveTask_ne _ _ _ (fun hc => hne d rfl hc.symm), findTask_saveTask_self_at]
        · exact ⟨rfl, rfl⟩
        · rfl
  refine ⟨?_, hfindtask.1, hfindtask.2, ?_, ?_⟩
  · simp only [TaskRunner.run, TaskRunner.runningTask, hget, hjob]
  · intro hv; rw [hv]; rfl
  · intro j hj htr; rw [hj]; simp [jsOr, htr]

/-- Witness for C8 (amended) at a concrete job returning nothing: the payload
is the empty-object serialization and the task completes. -/
theorem claim_C8_witness :
    (TaskRunner.run regOk exTask3 none exWorkflow20 exStore2).savedResult =
      some { data := some (jsonStringify (jsOr none (Json.obj []))), error := none } ∧
    (findTask (TaskRunner.run regOk exTask3 none exWorkflow20 exStore2).store.tasks
        exTask3.taskId).map Task.status = some TaskStatus.Completed := by
  have h := claim_C8_thm regOk exTask3 none exWorkflow20 exStore2 okJob none rfl
      (fun _ _ => rfl) (fun d hd => Option.noConfusion hd)
  exact ⟨h.1, h.2.1⟩

end Engine
